import Mathlib

/-!
Verification of the bazaar template-routing dataset pipeline:
`scripts/metadata/generate_prompt_dataset.py` (PromptExpander) and
`scripts/metadata/prepare_finetune.py` (FinetuneFormatter).

The scripts are embedded shallowly: one JSON line of the canonical
metadata file becomes a `RawRecord` (every field optional, as in a JSON
object), Python dictionary `KeyError`s and JSON decode failures become
`Except` errors, and the output file becomes the explicit `FileState`
threaded through `mainRun`.
-/

/-- One decoded JSON object of the canonical metadata file.  Every field is
optional because a JSON object may omit any key; `data['template_id']`
raises `KeyError` exactly when the field is `none`. -/
structure RawRecord where
  template_id : Option String
  template_name : Option String
  supported_formats : Option (List String)
  user_phrases : Option (List String)
  keywords : Option (List String)
  db_id : Option String
deriving DecidableEq, Repr

/-- A line of the intermediate prompt dataset, as built by the dict literal
in `generate_prompt_dataset.main`. -/
structure PromptExample where
  prompt : String
  expected_template_id : String
  expected_template_name : String
  db_id : Option String
deriving DecidableEq, Repr, Inhabited

/-- The `FORMAT_HINTS` dict of `generate_prompt_dataset.py`;
`FORMAT_HINTS.get(fmt, [])` returns `[]` on an unmapped key. -/
def FORMAT_HINTS (fmt : String) : List String :=
  if fmt = "landscape" then ["format:landscape", "desktop layout", "wide hero"]
  else if fmt = "portrait" then ["format:portrait", "mobile layout", "vertical video"]
  else if fmt = "square" then ["format:square", "social square", "1:1 canvas"]
  else []

/-- The `VARIANTS_PER_TEMPLATE` constant. -/
def VARIANTS_PER_TEMPLATE : Nat := 4

/-- Python `data.get(key) or default`: both a missing key (`None`) and an
empty list are falsy, so either falls through to `default`. -/
def getOrFalsy (o : Option (List α)) (d : List α) : List α :=
  match o with
  | none => d
  | some l => if l.isEmpty then d else l

/-- `formats = data.get('supported_formats') or ['landscape']`. -/
def formats (r : RawRecord) : List String :=
  getOrFalsy r.supported_formats ["landscape"]

/-- `phrases = data.get('user_phrases') or data.get('keywords') or []`. -/
def phrases (r : RawRecord) : List String :=
  getOrFalsy r.user_phrases (getOrFalsy r.keywords [])

/-- `hints = [hint for fmt in formats for hint in FORMAT_HINTS.get(fmt, [])]`
followed by `hints = hints or ['generic format']`. -/
def hints (r : RawRecord) : List String :=
  let hs := (formats r).flatMap FORMAT_HINTS
  if hs.isEmpty then ["generic format"] else hs

/-- `' '.join(prompt_parts)` where `prompt_parts` is `[hints[idx], phrase]`
when `idx < len(hints)` and `[phrase]` otherwise. -/
def mkPrompt (hs : List String) (idx : Nat) (phrase : String) : String :=
  match hs[idx]? with
  | some h => h ++ " " ++ phrase
  | none => phrase

/-- The dict literal appended to `examples` for phrase index `ip.1` and
phrase text `ip.2`, given the record fields are present. -/
def exampleFor (hs : List String) (ip : Nat × String)
    (tid tname : String) (db : Option String) : PromptExample :=
  { prompt := mkPrompt hs ip.1 ip.2
    expected_template_id := tid
    expected_template_name := tname
    db_id := db }

/-- One iteration of the `for idx, phrase in enumerate(phrases[:VARIANTS_PER_TEMPLATE])`
body: `data['template_id']` / `data['template_name']` raise `KeyError`
when the key is missing. -/
def buildExample (r : RawRecord) (hs : List String) (ip : Nat × String) :
    Except String PromptExample :=
  match r.template_id, r.template_name with
  | some tid, some tname => .ok (exampleFor hs ip tid tname r.db_id)
  | _, _ => .error "KeyError"

/-- Sequential effectful map over a list, stopping at the first error —
the semantics of a Python `for` loop whose body may raise. -/
def mapE (f : α → Except ε β) : List α → Except ε (List β)
  | [] => .ok []
  | a :: l =>
    match f a with
    | .error e => .error e
    | .ok b =>
      match mapE f l with
      | .error e => .error e
      | .ok bs => .ok (b :: bs)

/-- Processing of one decoded record inside `main`'s loop: records whose
phrase source is empty are skipped (`continue`), otherwise each of the
first `VARIANTS_PER_TEMPLATE` phrases yields one example. -/
def processRecord (r : RawRecord) : Except String (List PromptExample) :=
  let ps := phrases r
  if ps.isEmpty then .ok []
  else mapE (buildExample r (hints r)) ((ps.take VARIANTS_PER_TEMPLATE).enum)

/-- One input line: `json.loads(line)` raising `JSONDecodeError` is the
`.error` case, then the decoded record is processed. -/
def lineStep : Except Unit RawRecord → Except String (List PromptExample)
  | .error _ => .error "json.decoder.JSONDecodeError"
  | .ok r => processRecord r

/-- The whole `for line in SOURCE.read_text().splitlines()` loop:
examples of all records accumulated in input order. -/
def processAll (lines : List (Except Unit RawRecord)) :
    Except String (List PromptExample) :=
  (mapE lineStep lines).map List.flatten

/-- State of the destination file: either its pre-run contents (of an
arbitrary type `α`, since old bytes need not be prompt examples) or the
freshly written example list. -/
inductive FileState (α : Type) where
  | old : α → FileState α
  | written : List PromptExample → FileState α
deriving DecidableEq

/-- `generate_prompt_dataset.main`: the loop over all input lines runs to
completion first; only then is `OUT.open('w')` reached and the file
truncated and rewritten, so any error leaves the file in its old state.
Returns the final file state and the printed count (or the error). -/
def mainRun (lines : List (Except Unit RawRecord)) (out0 : FileState α) :
    FileState α × Except String Nat :=
  match processAll lines with
  | .error e => (out0, .error e)
  | .ok exs => (.written exs, .ok exs.length)

/-- One chat turn of the fine-tune dataset. -/
structure Turn where
  role : String
  content : String
deriving DecidableEq, Repr

/-- One line of `metadata_finetune_dataset.jsonl`: a `messages` list. -/
structure FinetuneConversation where
  messages : List Turn
deriving DecidableEq, Repr

/-- The fixed system instruction of `prepare_finetune.py`. -/
def prefix_system : String :=
  "You are a template routing assistant. Given user intent, respond with the best template id."

/-- The `record` dict built in `prepare_finetune.py` for one prompt
example. -/
def record (ex : PromptExample) : FinetuneConversation :=
  { messages :=
      [ { role := "system", content := prefix_system }
      , { role := "user", content := ex.prompt }
      , { role := "assistant", content := ex.expected_template_id } ] }

/-- The whole `prepare_finetune.py` loop: one conversation per input line,
in input order. -/
def prepareFinetune (examples : List PromptExample) : List FinetuneConversation :=
  examples.map record

example : processRecord
    { template_id := some "t1", template_name := some "Hero",
      supported_formats := some ["square"], user_phrases := some ["make a square banner"],
      keywords := none, db_id := none } =
    .ok [{ prompt := "format:square make a square banner",
           expected_template_id := "t1", expected_template_name := "Hero", db_id := none }] := rfl

/-! ### Helper lemmas -/

theorem mapE_ok_length {f : α → Except ε β} :
    ∀ {l : List α} {out : List β}, mapE f l = .ok out → out.length = l.length := by
  intro l
  induction l with
  | nil => intro out h; simp [mapE] at h; subst h; rfl
  | cons a l ih =>
    intro out h
    unfold mapE at h
    cases hfa : f a with
    | error e => rw [hfa] at h; simp at h
    | ok b =>
      rw [hfa] at h
      cases hml : mapE f l with
      | error e => rw [hml] at h; simp at h
      | ok bs =>
        rw [hml] at h
        simp at h
        simp [← h, ih hml]

theorem mapE_ok_getElem {f : α → Except ε β} :
    ∀ {l : List α} {out : List β}, mapE f l = .ok out →
      ∀ (i : Nat) (y : β), out[i]? = some y → ∃ x, l[i]? = some x ∧ f x = .ok y := by
  intro l
  induction l with
  | nil => intro out h i y hy; simp [mapE] at h; subst h; simp at hy
  | cons a l ih =>
    intro out h i y hy
    unfold mapE at h
    cases hfa : f a with
    | error e => rw [hfa] at h; simp at h
    | ok b =>
      rw [hfa] at h
      cases hml : mapE f l with
      | error e => rw [hml] at h; simp at h
      | ok bs =>
        rw [hml] at h
        simp at h
        subst h
        cases i with
        | zero => simp at hy; exact ⟨a, by simp, by rw [hfa, hy]⟩
        | succ n =>
          simp at hy
          obtain ⟨x, hx, hfx⟩ := ih hml n y hy
          exact ⟨x, by simpa using hx, hfx⟩

theorem mapE_mem {f : α → Except ε β} :
    ∀ {l : List α} {out : List β}, mapE f l = .ok out →
      ∀ y ∈ out, ∃ x ∈ l, f x = .ok y := by
  intro l
  induction l with
  | nil => intro out h y hy; simp [mapE] at h; subst h; simp at hy
  | cons a l ih =>
    intro out h y hy
    unfold mapE at h
    cases hfa : f a with
    | error e => rw [hfa] at h; simp at h
    | ok b =>
      rw [hfa] at h
      cases hml : mapE f l with
      | error e => rw [hml] at h; simp at h
      | ok bs =>
        rw [hml] at h
        simp at h
        subst h
        rcases List.mem_cons.mp hy with hy | hy
        · exact ⟨a, by simp, by rw [hfa, hy]⟩
        · obtain ⟨x, hx, hfx⟩ := ih hml y hy
          exact ⟨x, List.mem_cons_of_mem a hx, hfx⟩

theorem mapE_error_of_mem {f : α → Except ε β} {a : α} {e : ε} :
    ∀ {l : List α}, a ∈ l → f a = .error e → ∃ e2, mapE f l = .error e2 := by
  intro l
  induction l with
  | nil => intro h; simp at h
  | cons b l ih =>
    intro hm hf
    unfold mapE
    cases hfb : f b with
    | error e2 => exact ⟨e2, rfl⟩
    | ok y =>
      rcases List.mem_cons.mp hm with hm | hm
      · rw [← hm] at hfb; rw [hfb] at hf; simp at hf
      · obtain ⟨e2, he2⟩ := ih hm hf
        rw [he2]
        exact ⟨e2, rfl⟩

theorem mapE_error_of_ne_nil {f : α → Except ε β} {e : ε}
    (l : List α) (hl : l ≠ []) (hf : ∀ x, f x = .error e) : mapE f l = .error e := by
  cases l with
  | nil => exact absurd rfl hl
  | cons a l => simp [mapE, hf a]

theorem mapE_buildExample_ok (r : RawRecord) (tid tname : String)
    (h1 : r.template_id = some tid) (h2 : r.template_name = some tname)
    (hs : List String) (l : List (Nat × String)) :
    mapE (buildExample r hs) l =
      .ok (l.map fun ip => exampleFor hs ip tid tname r.db_id) := by
  induction l with
  | nil => rfl
  | cons a l ih => simp [mapE, buildExample, h1, h2, ih]

theorem processRecord_eq (r : RawRecord) (tid tname : String)
    (h1 : r.template_id = some tid) (h2 : r.template_name = some tname) :
    processRecord r =
      .ok (((phrases r).take VARIANTS_PER_TEMPLATE).enum.map
        fun ip => exampleFor (hints r) ip tid tname r.db_id) := by
  unfold processRecord
  by_cases hps : (phrases r).isEmpty
  · have hnil : phrases r = [] := by simpa [List.isEmpty_iff] using hps
    simp [hps, hnil]
  · simp only [hps, if_neg, Bool.false_eq_true, not_false_eq_true, if_false]
    exact mapE_buildExample_ok r tid tname h1 h2 (hints r) _

theorem prompt_mem_processRecord (r : RawRecord) (exs : List PromptExample)
    (hex : processRecord r = .ok exs) :
    ∀ ex ∈ exs, ∃ (i : Nat) (p : String), p ∈ phrases r ∧
      ex.prompt = mkPrompt (hints r) i p := by
  intro ex hm
  unfold processRecord at hex
  by_cases hps : (phrases r).isEmpty
  · rw [if_pos hps] at hex
    injection hex with hex
    subst hex
    simp at hm
  · rw [if_neg hps] at hex
    obtain ⟨ip, hip, hb⟩ := mapE_mem hex ex hm
    have hsnd : ip.2 ∈ (phrases r).take VARIANTS_PER_TEMPLATE := by
      have := List.mem_map_of_mem Prod.snd hip
      rwa [List.enum_map_snd] at this
    refine ⟨ip.1, ip.2, List.mem_of_mem_take hsnd, ?_⟩
    unfold buildExample at hb
    cases hid : r.template_id with
    | none => rw [hid] at hb; cases r.template_name <;> simp at hb
    | some tid =>
      rw [hid] at hb
      cases hnm : r.template_name with
      | none => rw [hnm] at hb; simp at hb
      | some tname =>
        rw [hnm] at hb
        simp at hb
        rw [← hb]
        rfl

theorem processRecord_missing_key (r : RawRecord) (hne : phrases r ≠ [])
    (hmiss : r.template_id = none ∨ r.template_name = none) :
    processRecord r = .error "KeyError" := by
  have hb : ∀ ip, buildExample r (hints r) ip = .error "KeyError" := by
    intro ip
    rcases hmiss with h | h
    · cases r.template_name <;> simp [buildExample, h]
    · cases r.template_id <;> simp [buildExample, h]
  unfold processRecord
  rw [if_neg (by simpa [List.isEmpty_iff] using hne)]
  apply mapE_error_of_ne_nil _ _ hb
  have hlen : 0 < ((phrases r).take VARIANTS_PER_TEMPLATE).enum.length := by
    rw [List.enum_length, List.length_take]
    have := List.length_pos.mpr hne
    simp [VARIANTS_PER_TEMPLATE]
    omega
  exact List.ne_nil_of_length_pos hlen

theorem buildExample_ok_elim {r : RawRecord} {hs : List String}
    {ip : Nat × String} {ex : PromptExample}
    (hb : buildExample r hs ip = .ok ex) :
    ∃ tid tname, r.template_id = some tid ∧ r.template_name = some tname ∧
      ex = exampleFor hs ip tid tname r.db_id := by
  unfold buildExample at hb
  cases h1 : r.template_id with
  | none => rw [h1] at hb; cases r.template_name <;> simp at hb
  | some tid =>
    cases h2 : r.template_name with
    | none => rw [h1, h2] at hb; simp at hb
    | some tname =>
      rw [h1, h2] at hb
      simp at hb
      exact ⟨tid, tname, rfl, rfl, hb.symm⟩

/-! ### Claim theorems -/

/-- C1: every input record with at least one phrase (from `user_phrases` or
`keywords`), at least one supported format, and its required fields present
yields between 1 and `VARIANTS_PER_TEMPLATE` (= 4) prompt examples, each of
whose `expected_template_id` is the record's `template_id` verbatim. -/
theorem C1_expander_count_and_verbatim_id (r : RawRecord) (tid tname : String)
    (fmts : List String)
    (h1 : r.template_id = some tid) (h2 : r.template_name = some tname)
    (_hf : r.supported_formats = some fmts) (_hfne : fmts ≠ [])
    (hp : phrases r ≠ []) :
    ∃ exs : List PromptExample, processRecord r = .ok exs ∧
      1 ≤ exs.length ∧ exs.length ≤ VARIANTS_PER_TEMPLATE ∧
      ∀ ex ∈ exs, ex.expected_template_id = tid := by
  refine ⟨_, processRecord_eq r tid tname h1 h2, ?_, ?_, ?_⟩
  · rw [List.length_map, List.enum_length, List.length_take]
    have hlen := List.length_pos.mpr hp
    rw [show VARIANTS_PER_TEMPLATE = 4 from rfl]
    omega
  · rw [List.length_map, List.enum_length, List.length_take]
    exact Nat.min_le_left _ _
  · intro ex hm
    obtain ⟨ip, hip, hb⟩ := List.mem_map.mp hm
    rw [← hb]
    rfl

def w1rec : RawRecord :=
  { template_id := some "t1", template_name := some "Hero",
    supported_formats := some ["square"],
    user_phrases := some ["make a square banner"], keywords := none, db_id := none }

/-- Witness for C1 at a concrete record. -/
theorem C1_expander_count_and_verbatim_id_witness :
    ∃ exs : List PromptExample, processRecord w1rec = .ok exs ∧
      1 ≤ exs.length ∧ exs.length ≤ VARIANTS_PER_TEMPLATE ∧
      ∀ ex ∈ exs, ex.expected_template_id = "t1" :=
  C1_expander_count_and_verbatim_id w1rec "t1" "Hero" ["square"]
    rfl rfl rfl (by decide) (by decide)

/-- C2: for a processed record, the example at phrase index `i` has prompt
`hints[i] ++ " " ++ phrase[i]` while a hint exists at index `i`, and
`phrase[i]` alone once the hint list is exhausted; hint `i` pairs only with
phrase `i`. -/
theorem C2_hint_phrase_pairing (r : RawRecord) (exs : List PromptExample)
    (hex : processRecord r = .ok exs) (i : Nat) (hi : i < exs.length) :
    ∃ phrase, (phrases r)[i]? = some phrase ∧
      exs[i]?.map PromptExample.prompt = some (mkPrompt (hints r) i phrase) ∧
      (∀ h, (hints r)[i]? = some h →
        mkPrompt (hints r) i phrase = h ++ " " ++ phrase) ∧
      ((hints r)[i]? = none → mkPrompt (hints r) i phrase = phrase) := by
  unfold processRecord at hex
  by_cases hps : (phrases r).isEmpty
  · rw [if_pos hps] at hex
    injection hex with hex
    subst hex
    simp at hi
  · rw [if_neg hps] at hex
    obtain ⟨ex, hexi⟩ : ∃ ex, exs[i]? = some ex := ⟨exs[i], List.getElem?_eq_getElem hi⟩
    obtain ⟨ip, hip, hb⟩ := mapE_ok_getElem hex i ex hexi
    rw [List.getElem?_enum] at hip
    cases htk : ((phrases r).take VARIANTS_PER_TEMPLATE)[i]? with
    | none => rw [htk] at hip; simp at hip
    | some phrase =>
      rw [htk] at hip
      simp at hip
      have hilt : i < VARIANTS_PER_TEMPLATE := by
        have hlen := mapE_ok_length hex
        rw [List.enum_length, List.length_take] at hlen
        rw [show VARIANTS_PER_TEMPLATE = 4 from rfl]
        rw [hlen, show VARIANTS_PER_TEMPLATE = 4 from rfl] at hi
        omega
      rw [List.getElem?_take_of_lt hilt] at htk
      obtain ⟨tid, tname, hr1, hr2, hexel⟩ := buildExample_ok_elim hb
      refine ⟨phrase, htk, ?_, ?_, ?_⟩
      · rw [hexi, hexel]
        subst hip
        rfl
      · intro h hh
        simp [mkPrompt, hh]
      · intro hh
        simp [mkPrompt, hh]

def w2rec : RawRecord :=
  { template_id := some "t2", template_name := some "Mobile",
    supported_formats := some ["portrait"],
    user_phrases := some ["vertical app demo"], keywords := none, db_id := some "42" }

/-- Witness for C2 at a concrete record and index 0. -/
theorem C2_hint_phrase_pairing_witness :
    ∃ phrase, (phrases w2rec)[0]? = some phrase ∧
      ((processRecord w2rec).toOption.getD [])[0]?.map PromptExample.prompt =
        some (mkPrompt (hints w2rec) 0 phrase) ∧
      (∀ h, (hints w2rec)[0]? = some h →
        mkPrompt (hints w2rec) 0 phrase = h ++ " " ++ phrase) ∧
      ((hints w2rec)[0]? = none → mkPrompt (hints w2rec) 0 phrase = phrase) :=
  C2_hint_phrase_pairing w2rec ((processRecord w2rec).toOption.getD []) rfl 0 (by decide)

/-- C3: the fine-tune stage maps each prompt example to exactly one
conversation whose turns are, in order, the fixed system instruction, the
unchanged prompt, and the unchanged `expected_template_id`. -/
theorem C3_finetune_three_turns (exs : List PromptExample) :
    (prepareFinetune exs).length = exs.length ∧
    ∀ i : Nat, (prepareFinetune exs)[i]? = (exs[i]?).map fun ex =>
      { messages :=
          [ { role := "system", content := prefix_system }
          , { role := "user", content := ex.prompt }
          , { role := "assistant", content := ex.expected_template_id } ] } := by
  constructor
  · simp [prepareFinetune]
  · intro i
    cases h : exs[i]? <;> simp [prepareFinetune, List.getElem?_map, record, h]

def c4rec : RawRecord :=
  { template_id := some "t1", template_name := some "Hero",
    supported_formats := none, user_phrases := some [],
    keywords := some ["spinning logo"], db_id := none }

/-- C4 counterexample: `user_phrases` is present (as the empty list), yet a
prompt example is generated from `keywords` — Python's
`data.get('user_phrases') or data.get('keywords') or []` falls through on
an empty (falsy) list, not only on an absent key.  Removing `keywords`
changes the output, so the keywords were used. -/
theorem C4_counterexample :
    c4rec.user_phrases = some [] ∧
    processRecord c4rec =
      .ok [{ prompt := "format:landscape spinning logo",
             expected_template_id := "t1", expected_template_name := "Hero",
             db_id := none }] ∧
    processRecord { c4rec with keywords := none } = .ok [] :=
  ⟨rfl, rfl, rfl⟩

/-- C4 amended: `keywords` is used as the phrase source only when
`user_phrases` is absent or empty; whenever `user_phrases` is present and
non-empty, the output is independent of `keywords`. -/
theorem C4_keywords_unused_when_user_phrases_nonempty (r : RawRecord)
    (l : List String) (h : r.user_phrases = some l) (hne : l ≠ [])
    (kw : Option (List String)) :
    processRecord { r with keywords := kw } =
      processRecord { r with keywords := none } := by
  have hph : ∀ kw2, phrases { r with keywords := kw2 } = l := by
    intro kw2
    simp [phrases, getOrFalsy, h, hne]
  simp only [processRecord]
  rw [hph kw, hph none]
  rfl

/-- Witness for C4 amended at a concrete record. -/
theorem C4_keywords_unused_when_user_phrases_nonempty_witness :
    processRecord { w1rec with keywords := some ["ignored"] } =
      processRecord { w1rec with keywords := none } :=
  C4_keywords_unused_when_user_phrases_nonempty w1rec
    ["make a square banner"] rfl (by decide) (some ["ignored"])

def c5rec : RawRecord :=
  { template_id := some "t1", template_name := some "Hero",
    supported_formats := some ["landscape"],
    user_phrases := some ["a", "b", "c", ""], keywords := none, db_id := none }

/-- C5 counterexample: with an empty string as the fourth phrase (index 3,
past the three landscape hints), the produced prompt is the empty string,
so "every produced prompt is non-empty for arbitrary phrase strings" fails. -/
theorem C5_counterexample :
    processRecord c5rec =
      .ok [ { prompt := "format:landscape a", expected_template_id := "t1",
              expected_template_name := "Hero", db_id := none }
          , { prompt := "desktop layout b", expected_template_id := "t1",
              expected_template_name := "Hero", db_id := none }
          , { prompt := "wide hero c", expected_template_id := "t1",
              expected_template_name := "Hero", db_id := none }
          , { prompt := "", expected_template_id := "t1",
              expected_template_name := "Hero", db_id := none } ] :=
  rfl

/-- C5 amended: every produced prompt is non-empty provided every phrase of
the record is non-empty (an empty phrase at an index past the hint list is
emitted verbatim as an empty prompt). -/
theorem C5_prompt_nonempty_of_phrases_nonempty (r : RawRecord)
    (exs : List PromptExample) (hex : processRecord r = .ok exs)
    (hph : ∀ p ∈ phrases r, p ≠ "") :
    ∀ ex ∈ exs, ex.prompt ≠ "" := by
  intro ex hm
  obtain ⟨i, p, hp, hpr⟩ := prompt_mem_processRecord r exs hex ex hm
  rw [hpr]
  unfold mkPrompt
  cases hh : (hints r)[i]? with
  | none => exact hph p hp
  | some h =>
    intro heq
    have hlen := congrArg String.length heq
    simp [String.length_append] at hlen
    exact absurd hlen.1.2 (by decide)

/-- Witness for C5 amended at a concrete record. -/
theorem C5_prompt_nonempty_of_phrases_nonempty_witness :
    ({ prompt := "format:square make a square banner", expected_template_id := "t1",
       expected_template_name := "Hero", db_id := none } : PromptExample).prompt ≠ "" :=
  C5_prompt_nonempty_of_phrases_nonempty w1rec
    [{ prompt := "format:square make a square banner", expected_template_id := "t1",
       expected_template_name := "Hero", db_id := none }]
    rfl (by decide) _ (by simp)

/-- C6: when every declared format is unrecognized (not landscape, portrait
or square), the combined hint list is exactly `["generic format"]`, and every
produced prompt is a phrase alone or `"generic format "` before a phrase —
never a hint from the unmapped format string. -/
theorem C6_unrecognized_formats_generic (r : RawRecord) (fmts : List String)
    (hf : r.supported_formats = some fmts) (hne : fmts ≠ [])
    (hall : ∀ f ∈ fmts, f ≠ "landscape" ∧ f ≠ "portrait" ∧ f ≠ "square") :
    hints r = ["generic format"] ∧
    ∀ exs, processRecord r = .ok exs → ∀ ex ∈ exs,
      ∃ p ∈ phrases r, ex.prompt = "generic format " ++ p ∨ ex.prompt = p := by
  have hfor : formats r = fmts := by simp [formats, getOrFalsy, hf, hne]
  have hflat : fmts.flatMap FORMAT_HINTS = [] := by
    rw [List.flatMap_eq_nil_iff]
    intro f hfm
    obtain ⟨hl, hp2, hs2⟩ := hall f hfm
    simp [FORMAT_HINTS, hl, hp2, hs2]
  have hh : hints r = ["generic format"] := by simp [hints, hfor, hflat]
  refine ⟨hh, ?_⟩
  intro exs hex ex hm
  obtain ⟨i, p, hp, hpr⟩ := prompt_mem_processRecord r exs hex ex hm
  refine ⟨p, hp, ?_⟩
  rw [hpr, hh]
  cases i with
  | zero =>
    left
    rw [show mkPrompt ["generic format"] 0 p = "generic format" ++ " " ++ p from rfl]
    rw [show ("generic format" ++ " " : String) = "generic format " from rfl]
  | succ n =>
    right
    rfl

def w6rec : RawRecord :=
  { template_id := some "t6", template_name := some "Circle",
    supported_formats := some ["circle"],
    user_phrases := some ["round badge"], keywords := none, db_id := none }

/-- Witness for C6 at a concrete record with one unrecognized format. -/
theorem C6_unrecognized_formats_generic_witness :
    hints w6rec = ["generic format"] :=
  (C6_unrecognized_formats_generic w6rec ["circle"] rfl (by decide) (by decide)).1

/-- C7: a record whose `supported_formats` is absent or empty defaults to
the landscape format, hence the landscape hint set. -/
theorem C7_default_landscape (r : RawRecord)
    (h : r.supported_formats = none ∨ r.supported_formats = some []) :
    formats r = ["landscape"] ∧
    hints r = ["format:landscape", "desktop layout", "wide hero"] := by
  have hfor : formats r = ["landscape"] := by
    rcases h with h | h <;> simp [formats, getOrFalsy, h]
  refine ⟨hfor, ?_⟩
  unfold hints
  rw [hfor]
  rfl

def w7rec : RawRecord :=
  { template_id := some "t7", template_name := some "Wide",
    supported_formats := none,
    user_phrases := some ["hero banner"], keywords := none, db_id := none }

/-- Witness for C7 at a concrete record with no `supported_formats`. -/
theorem C7_default_landscape_witness :
    formats w7rec = ["landscape"] ∧
    hints w7rec = ["format:landscape", "desktop layout", "wide hero"] :=
  C7_default_landscape w7rec (Or.inl rfl)

/-- C8: a record with neither `user_phrases` nor `keywords` (each absent or
empty) is skipped: zero examples and no error. -/
theorem C8_no_phrases_skipped (r : RawRecord)
    (h1 : r.user_phrases = none ∨ r.user_phrases = some [])
    (h2 : r.keywords = none ∨ r.keywords = some []) :
    processRecord r = .ok [] := by
  have hph : phrases r = [] := by
    rcases h1 with h1 | h1 <;> rcases h2 with h2 | h2 <;>
      simp [phrases, getOrFalsy, h1, h2]
  simp [processRecord, hph]

def w8rec : RawRecord :=
  { template_id := some "t8", template_name := some "Empty",
    supported_formats := none,
    user_phrases := some [], keywords := none, db_id := none }

/-- Witness for C8 at a concrete record with empty `user_phrases` and no
`keywords`. -/
theorem C8_no_phrases_skipped_witness : processRecord w8rec = .ok [] :=
  C8_no_phrases_skipped w8rec (Or.inr rfl) (Or.inl rfl)

/-- C9: a non-skippable record (non-empty phrase source) with `template_id`
or `template_name` missing aborts with a `KeyError`, while a skippable
record is skipped without error whatever its fields. -/
theorem C9_missing_required_field (r : RawRecord) :
    (phrases r ≠ [] → (r.template_id = none ∨ r.template_name = none) →
      processRecord r = .error "KeyError") ∧
    (phrases r = [] → processRecord r = .ok []) :=
  ⟨fun hne hmiss => processRecord_missing_key r hne hmiss,
   fun h => by simp [processRecord, h]⟩

def c9a : RawRecord :=
  { template_id := none, template_name := some "X",
    supported_formats := none,
    user_phrases := some ["p"], keywords := none, db_id := none }

def c9b : RawRecord :=
  { template_id := none, template_name := none,
    supported_formats := none,
    user_phrases := none, keywords := none, db_id := none }

/-- Witness for C9: a phrased record missing `template_id` errors; a
phrase-less record missing both required fields is skipped silently. -/
theorem C9_missing_required_field_witness :
    processRecord c9a = .error "KeyError" ∧ processRecord c9b = .ok [] :=
  ⟨(C9_missing_required_field c9a).1 (by decide) (Or.inl rfl),
   (C9_missing_required_field c9b).2 rfl⟩

/-- C10: the destination file is opened for writing only after the whole
input is processed (see `mainRun`), so a run that hits a decode failure or
a missing required field on a non-skippable record leaves the destination
file in its prior state and reports the error. -/
theorem C10_output_untouched_on_error {α : Type}
    (lines : List (Except Unit RawRecord)) (out0 : α)
    (h : ∃ l ∈ lines, l = .error () ∨
      ∃ r, l = .ok r ∧ phrases r ≠ [] ∧
        (r.template_id = none ∨ r.template_name = none)) :
    (mainRun lines (FileState.old out0)).1 = FileState.old out0 ∧
    ∃ e, (mainRun lines (FileState.old out0)).2 = .error e := by
  obtain ⟨l, hl, hcase⟩ := h
  have herr : ∃ e, lineStep l = .error e := by
    rcases hcase with h | ⟨r, hr, hne, hmiss⟩
    · exact ⟨"json.decoder.JSONDecodeError", by rw [h]; rfl⟩
    · exact ⟨"KeyError", by
        rw [hr]
        simpa [lineStep] using processRecord_missing_key r hne hmiss⟩
  obtain ⟨e, he⟩ := herr
  obtain ⟨e2, he2⟩ := mapE_error_of_mem hl he
  constructor
  · simp [mainRun, processAll, he2, Except.map]
  · exact ⟨e2, by simp [mainRun, processAll, he2, Except.map]⟩

/-- Witness for C10: a run over a single undecodable line leaves a prior
output file state (here the placeholder `0`) untouched. -/
theorem C10_output_untouched_on_error_witness :
    (mainRun [Except.error ()] (FileState.old 0)).1 = FileState.old 0 :=
  (C10_output_untouched_on_error [Except.error ()] 0
    ⟨.error (), by simp, Or.inl rfl⟩).1
